import Mathlib

/-!
Verification of the arealens-geocode core against its design specification.

The Express API in `apps/api/index.js` is the authoritative source.  The
numeric JavaScript/SQL values (IEEE doubles, Postgres `numeric`) are embedded
as exact rationals (`ℚ`); SQL `ROUND(x::numeric, 2)` is rounding half away
from zero at two decimals, JavaScript `Math.round` is floor-of-plus-half, and
JavaScript `Number.prototype.toFixed(2)` rounds half towards `+∞` and keeps
the sign of the input.  PostGIS `ST_Distance` on `geography` is an external
geodesic distance; the insight computations are parametric in that distance
function, so every theorem below holds for the engine's actual geodesic model.
-/

attribute [local semireducible] Rat.mul Rat.add Rat.inv Rat.sub Rat.ofScientific

namespace ArealLens

/-- JavaScript `Math.ceil`, computably, as minus the floor of the negation. -/
def jsCeil (q : ℚ) : ℤ :=
  -((-q).floor)

/-- SQL `ROUND(q)` on `numeric`: round half away from zero, to an integer. -/
def rhalfAway (q : ℚ) : ℤ :=
  if 0 ≤ q then (q + 1/2).floor else -((-q + 1/2).floor)

/-- SQL `ROUND(q::numeric, 2)`: round half away from zero at two decimals. -/
def round2 (q : ℚ) : ℚ :=
  (rhalfAway (q * 100) : ℚ) / 100

/-- JavaScript `Math.round`: floor of the argument plus one half. -/
def jsRound (q : ℚ) : ℤ :=
  (q + 1/2).floor

/-- JavaScript `Math.round(q * 10) / 10`, the one-decimal rounding applied
to `distanceKm` in the insights endpoint. -/
def round1 (q : ℚ) : ℚ :=
  (jsRound (q * 10) : ℚ) / 10

/-- Two-decimal digit rendering used by `toFixed2`. -/
def twoDigits (m : ℕ) : String :=
  if m % 100 < 10 then "0" ++ toString (m % 100) else toString (m % 100)

/-- JavaScript `q.toFixed(2)`: round half towards `+∞` at two decimals and
print with the sign of the input (so `-0.003` prints as `"-0.00"`). -/
def toFixed2 (q : ℚ) : String :=
  let n : ℤ := (q * 100 + 1/2).floor
  let s : String := if q < 0 then "-" else ""
  let m : ℕ := n.natAbs
  s ++ toString (m / 100) ++ "." ++ twoDigits m

/-- The `geocode_status` of an `upload_rows` record. -/
inductive RowStatus where
  | pending
  | success
  | failed
  deriving DecidableEq, Repr

/-- The `status` of an `uploads` record (`001_init.sql` CHECK constraint). -/
inductive UploadStatus where
  | uploaded
  | processing
  | done
  | failed
  deriving DecidableEq, Repr

/-- One `upload_rows` record, restricted to the fields the core reads. -/
structure URow where
  rawAddress : String
  status : RowStatus
  lat : Option ℚ
  lng : Option ℚ
  geocodeError : Option String
  customerCount : Option ℤ
  deriving DecidableEq, Repr

/-- One upload together with its rows. -/
structure Upload where
  status : UploadStatus
  rows : List URow
  deriving DecidableEq, Repr

/-- A successfully geocoded point as the insights queries see it:
`geocode_status = 'success' AND lat IS NOT NULL AND lng IS NOT NULL`. -/
structure Pt where
  lat : ℚ
  lng : ℚ
  customerCount : Option ℤ
  deriving DecidableEq, Repr

/-- The rows feeding the `grid_cells` / `all_cells` CTEs. -/
def successPts (rows : List URow) : List Pt :=
  rows.filterMap fun r =>
    match r.status, r.lat, r.lng with
    | RowStatus.success, some la, some ln => some ⟨la, ln, r.customerCount⟩
    | _, _, _ => none

/-- The `GROUP BY ROUND(lat::numeric, 2), ROUND(lng::numeric, 2)` key. -/
def cellKey (p : Pt) : ℚ × ℚ :=
  (round2 p.lat, round2 p.lng)

/-- First-occurrence deduplication with an accumulator of already-seen
elements. -/
def dedupFirstAux {α : Type} [DecidableEq α] (seen : List α) : List α → List α
  | [] => []
  | a :: l =>
    if a ∈ seen then dedupFirstAux seen l
    else a :: dedupFirstAux (a :: seen) l

/-- First-occurrence deduplication: the (arbitrary but fixed) order in which
the embedding lists the groups a SQL `GROUP BY` produces. -/
def dedupFirst {α : Type} [DecidableEq α] (l : List α) : List α :=
  dedupFirstAux [] l

/-- The distinct grid-cell keys of a point list, in first-appearance order. -/
def keysOf (pts : List Pt) : List (ℚ × ℚ) :=
  dedupFirst (pts.map cellKey)

/-- The member rows of the grid cell with key `k`. -/
def membersOf (pts : List Pt) (k : ℚ × ℚ) : List Pt :=
  pts.filter (fun p => cellKey p = k)

/-- One row of the `grid_cells` / `all_cells` CTE. -/
structure GridCell where
  key : ℚ × ℚ
  count : ℕ
  centerLat : ℚ
  centerLng : ℚ
  totalCustomers : ℤ
  deriving DecidableEq, Repr

/-- Build the aggregate row for the cell keyed `k`: `COUNT(*)`, `AVG(lat)`,
`AVG(lng)`, `COALESCE(SUM(customer_count), 0)` over its members. -/
def mkCell (pts : List Pt) (k : ℚ × ℚ) : GridCell :=
  let ms := membersOf pts k
  { key := k
    count := ms.length
    centerLat := (ms.map Pt.lat).sum / ms.length
    centerLng := (ms.map Pt.lng).sum / ms.length
    totalCustomers := (ms.map (fun p => p.customerCount.getD 0)).sum }

/-- The `grid_cells` CTE: one aggregate row per distinct rounded key. -/
def gridCells (pts : List Pt) : List GridCell :=
  (keysOf pts).map (mkCell pts)

/-- The `ORDER BY count DESC` order as a total preorder on aggregate rows. -/
def countGE (a b : GridCell) : Prop :=
  b.count ≤ a.count

instance : DecidableRel countGE := fun a b =>
  inferInstanceAs (Decidable (b.count ≤ a.count))

instance : IsTotal GridCell countGE :=
  ⟨fun a b => (le_total b.count a.count)⟩

instance : IsTrans GridCell countGE :=
  ⟨fun _ _ _ hab hbc => le_trans hbc hab⟩

/-- SQL `ORDER BY count DESC LIMIT 3`: the top-3 dense cells (`dense_cells` CTE
and the `topDenseAreas` query share this text). -/
def topDense (pts : List Pt) : List GridCell :=
  ((gridCells pts).insertionSort countGE).take 3

/-- The dense-cell centroids handed to the distance computation. -/
def denseCenters (pts : List Pt) : List (ℚ × ℚ) :=
  (topDense pts).map (fun c => (c.centerLat, c.centerLng))

/-- Denominator of the concentration: `SUM(customer_count)` over rows with
`geocode_status = 'success' AND customer_count IS NOT NULL`. -/
def totalCustomers (rows : List URow) : ℤ :=
  ((rows.filter (fun r => r.status = RowStatus.success ∧ r.customerCount ≠ none)).map
    (fun r => r.customerCount.getD 0)).sum

/-- Numerator of the concentration: the `total_customers` of the top-3 dense
cells, summed by the JavaScript `reduce`. -/
def customersInTop3 (rows : List URow) : ℤ :=
  ((topDense (successPts rows)).map GridCell.totalCustomers).sum

/-- JavaScript `totalCustomers > 0 ? Math.round(customersInTop3/totalCustomers*100) : 0` -/
def concentrationPercent (rows : List URow) : ℤ :=
  if 0 < totalCustomers rows then
    jsRound ((customersInTop3 rows : ℚ) / (totalCustomers rows : ℚ) * 100)
  else 0

/-- The external geodesic distance (PostGIS `ST_Distance` on `geography`,
divided by 1000), in kilometres; the insight theorems hold for any model. -/
abbrev Dist := (ℚ × ℚ) → (ℚ × ℚ) → ℚ

/-- SQL `MIN` over a (nonempty at every use site) aggregate group. -/
def listMinQ : List ℚ → ℚ
  | [] => 0
  | a :: l => l.foldl min a

/-- Distance from a candidate centroid to the nearest dense centroid:
the `MIN(ST_Distance(...) / 1000.0)` aggregate of the `CROSS JOIN`. -/
def nearestDist (d : Dist) (c : ℚ × ℚ) (dense : List (ℚ × ℚ)) : ℚ :=
  listMinQ (dense.map (d c))

/-- The `ORDER BY distance_km ASC` order as a total preorder on candidate rows. -/
def distLE (a b : GridCell × ℚ) : Prop :=
  a.2 ≤ b.2

instance : DecidableRel distLE := fun a b =>
  inferInstanceAs (Decidable (a.2 ≤ b.2))

instance : IsTotal (GridCell × ℚ) distLE :=
  ⟨fun a b => le_total a.2 b.2⟩

instance : IsTrans (GridCell × ℚ) distLE :=
  ⟨fun _ _ _ hab hbc => le_trans hab hbc⟩

/-- The `whitespace_candidates` CTE followed by
`ORDER BY distance_km ASC LIMIT 3`, keeping the unrounded distance:
cells with `count <= 1` that are not dense cells, whose minimum distance to a
dense centroid is at most 3 km.  Guarded by `topDenseAreas.length > 0` as in
the JavaScript caller (with no cells the cross join is empty anyway). -/
def whiteSpaceRaw (d : Dist) (pts : List Pt) : List (GridCell × ℚ) :=
  let cells := gridCells pts
  let dense := topDense pts
  if dense.isEmpty then []
  else
    let cands := cells.filter
      (fun c => c.count ≤ 1 ∧ ∀ dc ∈ dense, ¬(dc.key = c.key))
    let withD := cands.map
      (fun c => (c, nearestDist d (c.centerLat, c.centerLng)
        (dense.map (fun dc => (dc.centerLat, dc.centerLng)))))
    let within := withD.filter (fun cd => cd.2 ≤ 3)
    (within.insertionSort distLE).take 3

/-- One element of the `whiteSpaceAreas` JSON array. -/
structure WSArea where
  key : ℚ × ℚ
  count : ℕ
  center : ℚ × ℚ
  distanceKm : ℚ
  deriving DecidableEq, Repr

/-- The `whiteSpaceAreas` response field: the query rows with `distanceKm`
rounded to one decimal (`Math.round(parseFloat(row.distance_km) * 10) / 10`). -/
def whiteSpaceAreas (d : Dist) (pts : List Pt) : List WSArea :=
  (whiteSpaceRaw d pts).map fun cd =>
    ⟨cd.1.key, cd.1.count, (cd.1.centerLat, cd.1.centerLng), round1 cd.2⟩

/-- The nearest-dense-centroid distance of a reported whitespace area,
recomputed from its centroid. -/
def wsNearest (d : Dist) (pts : List Pt) (a : WSArea) : ℚ :=
  nearestDist d a.center (denseCenters pts)

/-- The address resolver boundary: coordinates or a failure reason. -/
abbrev Resolver := String → Except String (ℚ × ℚ)

/-- Per-row outcome of one geocoding attempt: on success persist `lat`,
`lng`, clear the error; on failure persist the reason. -/
def geocodeRow (resolve : Resolver) (r : URow) : URow :=
  match resolve r.rawAddress with
  | Except.ok c =>
      { r with lat := some c.1, lng := some c.2,
               status := RowStatus.success, geocodeError := none }
  | Except.error e =>
      { r with status := RowStatus.failed, geocodeError := some e }

/-- Attempt every pending row once (non-pending rows are untouched because
the pipeline only fetches `geocode_status = 'pending'`), counting resolver
calls. -/
def processRows (resolve : Resolver) : List URow → List URow × ℕ
  | [] => ([], 0)
  | r :: rs =>
    let t := processRows resolve rs
    if r.status = RowStatus.pending then (geocodeRow resolve r :: t.1, t.2 + 1)
    else (r :: t.1, t.2)

/-- Observable outcome of one `POST /api/uploads/:id/geocode` run. -/
structure RunResult where
  upload : Upload
  resolverCalls : ℕ
  statusWrites : List UploadStatus
  deriving DecidableEq, Repr

/-- Count of newly successful rows among the attempted pending rows
(`successCount` in the handler). -/
def successCount (resolve : Resolver) (u : Upload) : ℕ :=
  ((u.rows.filter (fun r => r.status = RowStatus.pending)).map
    (geocodeRow resolve)).countP (fun r => r.status == RowStatus.success)

/-- The geocoding pipeline: unconditionally write `processing`, fetch the
pending rows; with none, write `done` and stop; otherwise attempt each
pending row once and write `done` when some attempt succeeded, else
`failed`. -/
def runGeocode (resolve : Resolver) (u : Upload) : RunResult :=
  if (u.rows.filter (fun r => r.status = RowStatus.pending)).isEmpty then
    { upload := { status := UploadStatus.done, rows := u.rows },
      resolverCalls := 0,
      statusWrites := [UploadStatus.processing, UploadStatus.done] }
  else
    { upload :=
        { status := if 0 < successCount resolve u then UploadStatus.done
            else UploadStatus.failed,
          rows := (processRows resolve u.rows).1 },
      resolverCalls := (processRows resolve u.rows).2,
      statusWrites := [UploadStatus.processing,
        if 0 < successCount resolve u then UploadStatus.done
        else UploadStatus.failed] }

/-- One entry of a Mapbox feature's `context` array. -/
structure Ctx where
  id : String
  text : String
  deriving DecidableEq, Repr

/-- A Mapbox reverse-geocoding candidate, restricted to the fields
`reverseGeocode` reads (`place_type`, `text`, `context`, `place_name`). -/
structure Feature where
  placeTypes : List String
  text : String
  context : List Ctx
  placeName : Option String
  deriving DecidableEq, Repr

/-- JavaScript truthiness of an optional string: `""` is falsy. -/
def truthy : Option String → Option String
  | some s => if s = "" then none else some s
  | none => none

/-- String prefix test via character lists so that it evaluates by kernel
reduction (the model of `String.startsWith`). -/
def strHasPre (s pre : String) : Bool :=
  pre.toList.isPrefixOf s.toList

/-- JavaScript `s.split(',')[0]`: the prefix before the first comma. -/
def firstSegment (s : String) : String :=
  String.mk (s.toList.takeWhile (fun c => c ≠ ','))

/-- The template string of `lat.toFixed(2)`, a comma and a space, and
`lng.toFixed(2)`. -/
def coordStr (lat lng : ℚ) : String :=
  toFixed2 lat ++ ", " ++ toFixed2 lng

/-- JavaScript `placeName || feature.place_name?.split(',')[0] || coord`: the fallback
of the priority branch when neither locality nor region distinguishes. -/
def bareName (lat lng : ℚ) (f : Feature) : String :=
  if f.text ≠ "" then f.text
  else
    match f.placeName with
    | some pn =>
        let h := firstSegment pn
        if h ≠ "" then h else coordStr lat lng
    | none => coordStr lat lng

/-- The truthy locality of a feature's context. -/
def ctxLocality (f : Feature) : Option String :=
  truthy ((f.context.find? (fun c => strHasPre c.id "locality")).map Ctx.text)

/-- The truthy region of a feature's context. -/
def ctxRegion (f : Feature) : Option String :=
  truthy ((f.context.find? (fun c => strHasPre c.id "region")).map Ctx.text)

/-- The label built from a priority-matched feature: `"<text> / <locality>"`
when a truthy locality differs from the text, else `"<text> / <region>"` when
a truthy region differs, else the text, else the first comma-segment of
`place_name`, else the coordinate string (without `"Near "`). -/
def composeLabel (lat lng : ℚ) (f : Feature) : String :=
  if (ctxLocality f).isSome ∧ f.text ≠ (ctxLocality f).getD "" then
    f.text ++ " / " ++ (ctxLocality f).getD ""
  else if (ctxRegion f).isSome ∧ f.text ≠ (ctxRegion f).getD "" then
    f.text ++ " / " ++ (ctxRegion f).getD ""
  else bareName lat lng f

/-- The priority loop: for each type in order, the first feature whose
`place_type` includes it. -/
def findPriority (fs : List Feature) : List String → Option Feature
  | [] => none
  | t :: ts =>
    match fs.find? (fun f => f.placeTypes.contains t) with
    | some f => some f
    | none => findPriority fs ts

/-- The preference order of `reverseGeocode`. -/
def priorityTypes : List String :=
  ["neighborhood", "locality", "place", "district", "region"]

/-- The result of `reverseGeocode(lat, lng)` given the provider's candidate list: priority
match, else the first feature's text when that feature is not an address,
else the `"Near ..."` coordinate fallback. -/
def reverseGeocodeLabel (lat lng : ℚ) (features : List Feature) : String :=
  match findPriority features priorityTypes with
  | some f => composeLabel lat lng f
  | none =>
    match features with
    | [] => "Near " ++ coordStr lat lng
    | f0 :: _ =>
        if f0.placeTypes.contains "address" then "Near " ++ coordStr lat lng
        else if f0.text ≠ "" then f0.text
        else coordStr lat lng

/-- Modelled from the spec: the claim's priority selection, "the first
candidate whose place classification matches, in priority order". -/
def claimFindPriority (fs : List Feature) : Option Feature :=
  (priorityTypes.filterMap
    (fun t => fs.find? (fun f => f.placeTypes.contains t))).head?

/-- Modelled from the spec: the claim's label composition, `"<name> /
<locality-or-region>"` when a distinguishing one exists and differs from the
name, else the bare name. -/
def claimCompose (f : Feature) : String :=
  if (ctxLocality f).isSome ∧ f.text ≠ (ctxLocality f).getD "" then
    f.text ++ " / " ++ (ctxLocality f).getD ""
  else if (ctxRegion f).isSome ∧ f.text ≠ (ctxRegion f).getD "" then
    f.text ++ " / " ++ (ctxRegion f).getD ""
  else f.text

/-- Modelled from the spec: the claim's full label policy — priority match,
else the name of the FIRST NON-ADDRESS candidate anywhere in the list, else
the `"Near ..."` fallback. -/
def reverseLabelClaim (lat lng : ℚ) (fs : List Feature) : String :=
  match claimFindPriority fs with
  | some f => claimCompose f
  | none =>
    match fs.find? (fun f => !(f.placeTypes.contains "address")) with
    | some f => f.text
    | none => "Near " ++ coordStr lat lng

/-- The amended claim's label policy: as the claim states it except that
only the first candidate is consulted in the no-priority-match case, and the
`"Near ..."` fallback is used whenever that first candidate is an address. -/
def reverseLabelAmended (lat lng : ℚ) (fs : List Feature) : String :=
  match claimFindPriority fs with
  | some f => claimCompose f
  | none =>
    match fs with
    | [] => "Near " ++ coordStr lat lng
    | f0 :: _ =>
        if f0.placeTypes.contains "address" then "Near " ++ coordStr lat lng
        else f0.text

/-- Counterexample candidate list: an address first, then a point of
interest; no candidate matches a preferred classification. -/
def exAddrFeatures : List Feature :=
  [⟨["address"], "10 Main St", [], none⟩, ⟨["poi"], "Tower", [], none⟩]

/-- Witness candidate list: a neighborhood with a distinguishing locality. -/
def exGoodFeatures : List Feature :=
  [⟨["neighborhood"], "Mission", [⟨"locality.123", "SF"⟩], none⟩]

/-- The memo key of `getLabel`: `` `${lat.toFixed(2)},${lng.toFixed(2)}` ``. -/
def labelKey (p : ℚ × ℚ) : String :=
  toFixed2 p.1 ++ "," ++ toFixed2 p.2

/-- The keys passed to `reverseGeocode` by ONE `Promise.all` labelling
batch, given the request cache contents at batch start.  Every `getLabel`
of the batch runs its `geocodeCache.has(key)` check synchronously before
any of the batch's awaited fetches can resolve and call
`geocodeCache.set`, so a centroid issues a call exactly when its key was
absent when the batch started — centroids of the same batch that share a
key each issue their own call. -/
def batchCalledKeys (cache : List String) (ps : List (ℚ × ℚ)) : List String :=
  (ps.map labelKey).filter (fun k => ¬(k ∈ cache))

/-- The keys passed to `reverseGeocode` by one insights computation: the
dense areas are labelled first in one awaited `Promise.all` batch over the
fresh request-local cache, then the whitespace areas in a second batch that
sees every dense key already inserted. -/
def insightsCalledKeys (dense ws : List (ℚ × ℚ)) : List String :=
  batchCalledKeys [] dense ++ batchCalledKeys (dense.map labelKey) ws

/-- The reverse-geocode call trace of the insights computation on an
upload's points, under a distance model. -/
def insightsLabelTrace (d : Dist) (pts : List Pt) : List String :=
  insightsCalledKeys (denseCenters pts)
    ((whiteSpaceAreas d pts).map WSArea.center)

/-- Failing input for the memoization claim: two single-point cells whose
centroids share the label key `"37.77,-122.41"` — SQL `ROUND` sends
`-122.415` half away from zero into the `-122.42` cell while JavaScript
`toFixed(2)` sends it half towards `+∞` to `"-122.41"`, colliding with the
`-122.41` cell's centroid key. -/
def exPtsC6 : List Pt :=
  [⟨37.77, -122.415, none⟩, ⟨37.77, -122.41, none⟩]

/-- The presentation layer's whitespace circle radius (`App.jsx`):
`Math.min(3, Math.max(0.5, Math.ceil(area.distanceKm)))`. -/
def uiRadius (a : WSArea) : ℚ :=
  min 3 (max (1/2) ((jsCeil a.distanceKm : ℤ) : ℚ))

/-- Modelled from the spec: `clamp(x, lo, hi)` as the spec's whitespace
display-radius sentence uses it. -/
def clamp (x lo hi : ℚ) : ℚ :=
  max lo (min x hi)

/-- A successful upload row at the given coordinates. -/
def okRow (la ln : ℚ) (cust : Option ℤ) : URow :=
  ⟨"addr", RowStatus.success, some la, some ln, none, cust⟩

/-- Witness upload: three dense cells (two points each) and three
single-point cells. -/
def exRows : List URow :=
  [okRow 10.001 20 (some 10), okRow 10.002 20 (some 0),
   okRow 10.011 20 (some 0), okRow 10.012 20 (some 0),
   okRow 10.021 20 (some 0), okRow 10.022 20 (some 0),
   okRow 10.031 20 none, okRow 10.041 20 none, okRow 10.051 20 none]

def exPts : List Pt :=
  successPts exRows

/-- Witness distance model: fixed distances from the three single-point
candidate centroids, distinguished by their latitude. -/
def exD : Dist := fun p _ =>
  if p.1 = 10.031 then 101/100
  else if p.1 = 10.041 then 104/100
  else if p.1 = 10.051 then 296/100
  else 0

/-- Counterexample distance model for the radius claim: the only whitespace
candidate within threshold sits 2.36 km away, reported as 2.4 km. -/
def exD2 : Dist := fun p _ =>
  if p.1 = 10.031 then 59/25 else 99

/-- Counterexample upload for the concentration bound: a negative
`customer_count` in a cell outside the top 3. -/
def exRowsNeg : List URow :=
  [okRow 10.001 20 (some 10), okRow 10.002 20 (some 0),
   okRow 10.011 20 (some 0), okRow 10.012 20 (some 0),
   okRow 10.021 20 (some 0), okRow 10.022 20 (some 0),
   okRow 10.031 20 (some (-5))]

/-- Witness resolver: resolves `"a"`, fails everything else. -/
def exResolver : Resolver := fun s =>
  if s = "a" then Except.ok (1, 2) else Except.error "no result"

/-- Witness upload with two pending rows. -/
def exPendingUpload : Upload :=
  ⟨UploadStatus.uploaded,
   [⟨"a", RowStatus.pending, none, none, none, none⟩,
    ⟨"b", RowStatus.pending, none, none, none, none⟩]⟩

/-- Counterexample upload: already `failed`, all rows attempted. -/
def exFailedUpload : Upload :=
  ⟨UploadStatus.failed,
   [⟨"b", RowStatus.failed, none, none, some "no result", none⟩]⟩

/-- The spec's grid-grouping example pair of points. -/
def exPtsPair : List Pt :=
  [⟨37.774901, -122.419412, none⟩, ⟨37.774888, -122.419399, none⟩]

/-- The keys of the top-3 dense cells. -/
def topCellKeys (pts : List Pt) : List (ℚ × ℚ) :=
  (topDense pts).map GridCell.key

/-- Modelled from the spec: the claim's concentration numerator, the
customer counts of the successfully geocoded rows whose grid cell is one of
the top-3 dense cells. -/
def topRowsCustomers (rows : List URow) : ℤ :=
  (((successPts rows).filter
      (fun p => cellKey p ∈ topCellKeys (successPts rows))).map
    (fun p => p.customerCount.getD 0)).sum

/-- Modelled from the spec: the claim's concentration formula, round-half-up
of 100 times the top-3 customer share, and 0 when the total is 0. -/
def concentrationSpec (rows : List URow) : ℤ :=
  if totalCustomers rows = 0 then 0
  else (100 * (topRowsCustomers rows : ℚ) / (totalCustomers rows : ℚ) + 1/2).floor

/-! ### Helper lemmas -/

theorem ratFloor_eq_floor (q : ℚ) : q.floor = ⌊q⌋ := by
  rw [Rat.floor_def' q, Rat.floor_def]

theorem jsCeil_eq_ceil (q : ℚ) : jsCeil q = ⌈q⌉ := by
  rw [jsCeil, ratFloor_eq_floor, Int.floor_neg, neg_neg]

theorem jsRound_eq_floor (q : ℚ) : jsRound q = ⌊q + 1/2⌋ :=
  ratFloor_eq_floor _

theorem mem_dedupFirstAux {α : Type} [DecidableEq α] {a : α} :
    ∀ {l seen : List α}, a ∈ dedupFirstAux seen l ↔ a ∈ l ∧ a ∉ seen
  | [], seen => by simp [dedupFirstAux]
  | b :: l, seen => by
    rw [dedupFirstAux]
    by_cases hb : b ∈ seen
    · rw [if_pos hb, mem_dedupFirstAux]
      constructor
      · exact fun ⟨h1, h2⟩ => ⟨List.mem_cons_of_mem _ h1, h2⟩
      · rintro ⟨h1, h2⟩
        rcases List.mem_cons.1 h1 with rfl | h1
        · exact absurd hb h2
        · exact ⟨h1, h2⟩
    · rw [if_neg hb]
      by_cases hab : a = b
      · subst hab; simp [hb]
      · simp only [List.mem_cons, hab, false_or]
        rw [mem_dedupFirstAux]
        simp [hab]

theorem nodup_dedupFirstAux {α : Type} [DecidableEq α] :
    ∀ (l seen : List α), (dedupFirstAux seen l).Nodup
  | [], _ => by simp [dedupFirstAux]
  | b :: l, seen => by
    rw [dedupFirstAux]
    by_cases hb : b ∈ seen
    · rw [if_pos hb]; exact nodup_dedupFirstAux l seen
    · rw [if_neg hb]
      refine List.nodup_cons.2 ⟨?_, nodup_dedupFirstAux l _⟩
      rw [mem_dedupFirstAux]
      rintro ⟨-, h2⟩
      exact h2 (List.mem_cons_self _ _)

theorem mem_dedupFirst {α : Type} [DecidableEq α] {a : α} {l : List α} :
    a ∈ dedupFirst l ↔ a ∈ l := by
  rw [dedupFirst, mem_dedupFirstAux]
  simp

theorem nodup_dedupFirst {α : Type} [DecidableEq α] (l : List α) :
    (dedupFirst l).Nodup :=
  nodup_dedupFirstAux l []

theorem key_mkCell (pts : List Pt) (k : ℚ × ℚ) : (mkCell pts k).key = k := rfl

theorem mem_gridCells {pts : List Pt} {c : GridCell} :
    c ∈ gridCells pts ↔ c.key ∈ keysOf pts ∧ c = mkCell pts c.key := by
  constructor
  · intro hc
    rcases List.mem_map.1 hc with ⟨k, hk, hck⟩
    subst hck
    exact ⟨hk, rfl⟩
  · intro ⟨hk, hck⟩
    exact hck ▸ List.mem_map_of_mem _ hk

theorem cellKey_mem_keysOf {pts : List Pt} {p : Pt} (hp : p ∈ pts) :
    cellKey p ∈ keysOf pts :=
  mem_dedupFirst.2 (List.mem_map_of_mem _ hp)

theorem mem_membersOf {pts : List Pt} {p : Pt} {k : ℚ × ℚ} :
    p ∈ membersOf pts k ↔ p ∈ pts ∧ cellKey p = k := by
  simp [membersOf]

theorem processRows_fst (resolve : Resolver) :
    ∀ rs : List URow, (processRows resolve rs).1 =
      rs.map (fun r => if r.status = RowStatus.pending then geocodeRow resolve r else r)
  | [] => rfl
  | r :: rs => by
    simp only [processRows, List.map]
    by_cases h : r.status = RowStatus.pending <;>
      simp [h, processRows_fst resolve rs]

theorem processRows_snd (resolve : Resolver) :
    ∀ rs : List URow, (processRows resolve rs).2 =
      (rs.filter (fun r => r.status = RowStatus.pending)).length
  | [] => rfl
  | r :: rs => by
    simp only [processRows, List.filter]
    by_cases h : r.status = RowStatus.pending <;>
      simp [h, processRows_snd resolve rs]

theorem geocodeRow_status (resolve : Resolver) (r : URow) :
    (geocodeRow resolve r).status = RowStatus.success ∨
    (geocodeRow resolve r).status = RowStatus.failed := by
  unfold geocodeRow
  cases resolve r.rawAddress <;> simp

theorem count_pos_of_mem_gridCells {pts : List Pt} {c : GridCell}
    (hc : c ∈ gridCells pts) : 0 < c.count := by
  rcases mem_gridCells.1 hc with ⟨hk, hck⟩
  rcases List.mem_map.1 (mem_dedupFirst.1 hk) with ⟨p, hp, hpk⟩
  have hpm : p ∈ membersOf pts c.key := mem_membersOf.2 ⟨hp, hpk⟩
  have : 0 < (membersOf pts c.key).length := List.length_pos_of_mem hpm
  rw [hck]
  exact this

theorem mem_of_mem_topDense {pts : List Pt} {c : GridCell}
    (hc : c ∈ topDense pts) : c ∈ gridCells pts := by
  have h1 : c ∈ (gridCells pts).insertionSort countGE :=
    (List.take_sublist _ _).subset hc
  exact (List.mem_insertionSort countGE).1 h1

theorem mem_whiteSpaceRaw {d : Dist} {pts : List Pt} {cd : GridCell × ℚ}
    (h : cd ∈ whiteSpaceRaw d pts) :
    cd.1 ∈ gridCells pts ∧ cd.1.count ≤ 1 ∧
      (∀ dc ∈ topDense pts, ¬(dc.key = cd.1.key)) ∧
      cd.2 = nearestDist d (cd.1.centerLat, cd.1.centerLng) (denseCenters pts) ∧
      cd.2 ≤ 3 := by
  rw [whiteSpaceRaw] at h
  by_cases hd : (topDense pts).isEmpty
  · rw [if_pos hd] at h
    exact absurd h (List.not_mem_nil cd)
  · rw [if_neg hd] at h
    have h1 := (List.mem_insertionSort distLE).1 ((List.take_sublist _ _).subset h)
    rcases List.mem_filter.1 h1 with ⟨h2, h3⟩
    rcases List.mem_map.1 h2 with ⟨c, hc, hcd⟩
    rcases List.mem_filter.1 hc with ⟨hcell, hcand⟩
    rw [decide_eq_true_iff] at hcand
    subst hcd
    refine ⟨hcell, hcand.1, hcand.2, rfl, ?_⟩
    rw [decide_eq_true_iff] at h3
    exact h3

theorem sorted_whiteSpaceRaw (d : Dist) (pts : List Pt) :
    (whiteSpaceRaw d pts).Pairwise distLE := by
  rw [whiteSpaceRaw]
  by_cases hd : (topDense pts).isEmpty
  · rw [if_pos hd]; exact List.Pairwise.nil
  · rw [if_neg hd]
    exact (List.sorted_insertionSort distLE _).sublist (List.take_sublist _ _)

theorem length_whiteSpaceRaw (d : Dist) (pts : List Pt) :
    (whiteSpaceRaw d pts).length ≤ 3 := by
  rw [whiteSpaceRaw]
  by_cases hd : (topDense pts).isEmpty
  · rw [if_pos hd]; exact Nat.zero_le 3
  · rw [if_neg hd]; exact List.length_take_le 3 _

theorem mem_whiteSpaceAreas {d : Dist} {pts : List Pt} {a : WSArea}
    (h : a ∈ whiteSpaceAreas d pts) :
    ∃ cd ∈ whiteSpaceRaw d pts,
      a = ⟨cd.1.key, cd.1.count, (cd.1.centerLat, cd.1.centerLng), round1 cd.2⟩ := by
  rcases List.mem_map.1 h with ⟨cd, hcd, hacd⟩
  exact ⟨cd, hcd, hacd.symm⟩

theorem wsNearest_eq {d : Dist} {pts : List Pt} {cd : GridCell × ℚ}
    (hcd : cd ∈ whiteSpaceRaw d pts) :
    wsNearest d pts ⟨cd.1.key, cd.1.count, (cd.1.centerLat, cd.1.centerLng), round1 cd.2⟩
      = cd.2 := by
  rcases mem_whiteSpaceRaw hcd with ⟨-, -, -, hdist, -⟩
  rw [wsNearest]
  exact hdist.symm

theorem filter_mem_cons_sum (f : Pt → ℤ) (k : ℚ × ℚ) (ks : List (ℚ × ℚ))
    (hk : k ∉ ks) :
    ∀ pts : List Pt,
      ((pts.filter (fun p => cellKey p ∈ k :: ks)).map f).sum
        = ((pts.filter (fun p => cellKey p = k)).map f).sum
          + ((pts.filter (fun p => cellKey p ∈ ks)).map f).sum
  | [] => by simp
  | p :: pts => by
    have ih := filter_mem_cons_sum f k ks hk pts
    rw [List.filter_cons, List.filter_cons, List.filter_cons]
    by_cases h1 : cellKey p = k
    · have h2 : cellKey p ∉ ks := h1 ▸ hk
      rw [if_pos (show decide (cellKey p ∈ k :: ks) = true by simp [h1]),
        if_pos (show decide (cellKey p = k) = true by simp [h1]),
        if_neg (show ¬decide (cellKey p ∈ ks) = true by simp [h2])]
      rw [List.map_cons, List.sum_cons, List.map_cons, List.sum_cons, ih]
      omega
    · by_cases h3 : cellKey p ∈ ks
      · rw [if_pos (show decide (cellKey p ∈ k :: ks) = true by simp [h3]),
          if_neg (show ¬decide (cellKey p = k) = true by simp [h1]),
          if_pos (show decide (cellKey p ∈ ks) = true by simp [h3])]
        rw [List.map_cons, List.sum_cons, List.map_cons, List.sum_cons, ih]
        omega
      · rw [if_neg (show ¬decide (cellKey p ∈ k :: ks) = true by simp [h1, h3]),
          if_neg (show ¬decide (cellKey p = k) = true by simp [h1]),
          if_neg (show ¬decide (cellKey p ∈ ks) = true by simp [h3])]
        exact ih

theorem sum_over_keys (pts : List Pt) (f : Pt → ℤ) :
    ∀ ks : List (ℚ × ℚ), ks.Nodup →
      (ks.map (fun k => ((membersOf pts k).map f).sum)).sum
        = ((pts.filter (fun p => cellKey p ∈ ks)).map f).sum
  | [], _ => by simp
  | k :: ks, h => by
    have hk : k ∉ ks := (List.nodup_cons.1 h).1
    have ih := sum_over_keys pts f ks (List.nodup_cons.1 h).2
    rw [List.map_cons, List.sum_cons, ih, filter_mem_cons_sum f k ks hk pts]
    rfl

theorem map_key_gridCells (pts : List Pt) :
    (gridCells pts).map GridCell.key = keysOf pts := by
  rw [gridCells, List.map_map]
  have h : (GridCell.key ∘ mkCell pts) = id := funext fun k => key_mkCell pts k
  rw [h, List.map_id]

theorem nodup_topCellKeys (pts : List Pt) : (topCellKeys pts).Nodup := by
  have hperm :
      List.Perm (((gridCells pts).insertionSort countGE).map GridCell.key)
        ((gridCells pts).map GridCell.key) :=
    (List.perm_insertionSort countGE _).map _
  have hnd : (((gridCells pts).insertionSort countGE).map GridCell.key).Nodup := by
    rw [hperm.nodup_iff, map_key_gridCells]
    exact nodup_dedupFirst _
  exact hnd.sublist ((List.take_sublist _ _).map _)

theorem customersInTop3_eq (rows : List URow) :
    customersInTop3 rows = topRowsCustomers rows := by
  rw [customersInTop3, topRowsCustomers]
  have h1 : (topDense (successPts rows)).map GridCell.totalCustomers
      = (topCellKeys (successPts rows)).map
          (fun k => ((membersOf (successPts rows) k).map
            (fun p => p.customerCount.getD 0)).sum) := by
    rw [topCellKeys, List.map_map]
    refine List.map_congr_left ?_
    intro c hc
    rcases mem_gridCells.1 (mem_of_mem_topDense hc) with ⟨-, hck⟩
    rw [hck]
    rfl
  rw [h1, sum_over_keys _ _ _ (nodup_topCellKeys _)]

theorem successPts_origin {rows : List URow} {p : Pt} (hp : p ∈ successPts rows) :
    ∃ r ∈ rows, r.status = RowStatus.success ∧ r.customerCount = p.customerCount := by
  rcases List.mem_filterMap.1 hp with ⟨r, hr, heq⟩
  refine ⟨r, hr, ?_⟩
  cases hs : r.status <;> cases hla : r.lat <;> cases hln : r.lng <;>
    rw [hs, hla, hln] at heq <;> simp only [Option.some.injEq, reduceCtorEq] at heq
  exact ⟨rfl, by rw [← heq]⟩

theorem pt_cust_nonneg {rows : List URow}
    (hpos : ∀ r ∈ rows, 0 ≤ r.customerCount.getD 0) :
    ∀ p ∈ successPts rows, 0 ≤ p.customerCount.getD 0 := by
  intro p hp
  rcases successPts_origin hp with ⟨r, hr, -, hcc⟩
  rw [← hcc]
  exact hpos r hr

theorem totalCustomers_nonneg {rows : List URow}
    (hpos : ∀ r ∈ rows, 0 ≤ r.customerCount.getD 0) :
    0 ≤ totalCustomers rows := by
  rw [totalCustomers]
  refine List.sum_nonneg ?_
  intro x hx
  rcases List.mem_map.1 hx with ⟨r, hrf, rfl⟩
  exact hpos r (List.mem_filter.1 hrf).1

theorem successPts_cons_keep {r : URow} (rows : List URow) {la ln : ℚ}
    (hs : r.status = RowStatus.success) (hla : r.lat = some la)
    (hln : r.lng = some ln) :
    successPts (r :: rows) = ⟨la, ln, r.customerCount⟩ :: successPts rows := by
  rw [successPts, List.filterMap_cons, hs, hla, hln]
  rfl

theorem successPts_cons_skip {r : URow} (rows : List URow)
    (h : ¬(r.status = RowStatus.success ∧ r.lat.isSome ∧ r.lng.isSome)) :
    successPts (r :: rows) = successPts rows := by
  rw [successPts, List.filterMap_cons]
  cases hs : r.status <;> cases hla : r.lat <;> cases hln : r.lng <;>
    first
    | rfl
    | exact absurd ⟨hs, by rw [hla]; rfl, by rw [hln]; rfl⟩ h

theorem totalCustomers_cons_count {r : URow} (rows : List URow)
    (hs : r.status = RowStatus.success) (hcc : r.customerCount ≠ none) :
    totalCustomers (r :: rows) = r.customerCount.getD 0 + totalCustomers rows := by
  rw [totalCustomers, totalCustomers, List.filter_cons]
  simp [hs, hcc]

theorem totalCustomers_cons_skip {r : URow} (rows : List URow)
    (h : ¬(r.status = RowStatus.success ∧ r.customerCount ≠ none)) :
    totalCustomers (r :: rows) = totalCustomers rows := by
  rw [totalCustomers, totalCustomers, List.filter_cons,
    if_neg (show ¬decide (r.status = RowStatus.success ∧ r.customerCount ≠ none)
        = true by simpa using h)]

theorem totalCustomers_cons_ge {r : URow} (rows : List URow)
    (hr0 : 0 ≤ r.customerCount.getD 0) :
    totalCustomers rows ≤ totalCustomers (r :: rows) := by
  by_cases h : r.status = RowStatus.success ∧ r.customerCount ≠ none
  · rw [totalCustomers_cons_count rows h.1 h.2]
    exact le_add_of_nonneg_left hr0
  · rw [totalCustomers_cons_skip rows h]

theorem sumPts_le_total :
    ∀ rows : List URow, (∀ r ∈ rows, 0 ≤ r.customerCount.getD 0) →
      ((successPts rows).map (fun p => p.customerCount.getD 0)).sum
        ≤ totalCustomers rows
  | [], _ => by simp [successPts, totalCustomers]
  | r :: rows, hpos => by
    have ih := sumPts_le_total rows (fun x hx => hpos x (List.mem_cons_of_mem _ hx))
    have hr0 := hpos r (List.mem_cons_self r rows)
    by_cases hkeep : r.status = RowStatus.success ∧ r.lat.isSome ∧ r.lng.isSome
    · rcases hkeep with ⟨hs, hla, hln⟩
      rcases Option.isSome_iff_exists.1 hla with ⟨la, hla⟩
      rcases Option.isSome_iff_exists.1 hln with ⟨ln, hln⟩
      rw [successPts_cons_keep rows hs hla hln, List.map_cons, List.sum_cons]
      by_cases hcc : r.customerCount = none
      · rw [totalCustomers_cons_skip rows (by simp [hcc])]
        simp only [hcc, Option.getD_none]
        omega
      · rw [totalCustomers_cons_count rows hs hcc]
        exact add_le_add_left ih _
    · rw [successPts_cons_skip rows hkeep]
      exact le_trans ih (totalCustomers_cons_ge rows hr0)

theorem topRows_nonneg {rows : List URow}
    (hpos : ∀ r ∈ rows, 0 ≤ r.customerCount.getD 0) :
    0 ≤ topRowsCustomers rows := by
  rw [topRowsCustomers]
  refine List.sum_nonneg ?_
  intro x hx
  rcases List.mem_map.1 hx with ⟨p, hpf, rfl⟩
  exact pt_cust_nonneg hpos p (List.mem_filter.1 hpf).1

theorem topRows_le_total {rows : List URow}
    (hpos : ∀ r ∈ rows, 0 ≤ r.customerCount.getD 0) :
    topRowsCustomers rows ≤ totalCustomers rows := by
  refine le_trans ?_ (sumPts_le_total rows hpos)
  rw [topRowsCustomers]
  refine List.Sublist.sum_le_sum ((List.filter_sublist _).map _) ?_
  intro x hx
  rcases List.mem_map.1 hx with ⟨p, hp, rfl⟩
  exact pt_cust_nonneg hpos p hp

theorem head_filterMap_find (fs : List Feature) :
    ∀ ts : List String,
      ((ts.filterMap (fun t => fs.find? (fun f => f.placeTypes.contains t))).head?)
        = findPriority fs ts
  | [] => rfl
  | t :: ts => by
    rw [List.filterMap_cons, findPriority]
    cases fs.find? (fun f => f.placeTypes.contains t) with
    | none => exact head_filterMap_find fs ts
    | some g => rfl

theorem claimFindPriority_eq (fs : List Feature) :
    claimFindPriority fs = findPriority fs priorityTypes :=
  head_filterMap_find fs priorityTypes

theorem findPriority_mem {fs : List Feature} {f : Feature} :
    ∀ {ts : List String}, findPriority fs ts = some f → f ∈ fs
  | [], h => by simp [findPriority] at h
  | t :: ts, h => by
    rw [findPriority] at h
    cases hf : fs.find? (fun f => f.placeTypes.contains t) with
    | none =>
      rw [hf] at h
      exact findPriority_mem h
    | some g =>
      rw [hf] at h
      injection h with h'
      subst h'
      exact List.mem_of_find?_eq_some hf

theorem composeLabel_eq_claimCompose (lat lng : ℚ) (f : Feature)
    (hf : f.text ≠ "") : composeLabel lat lng f = claimCompose f := by
  rw [composeLabel, claimCompose, bareName, if_pos hf]

/-! ### Claim theorems -/

/-- Claim C1: for every upload and every distance model, `whiteSpaceAreas`
contains only grid cells of occupancy at most 1 which are not top-3 dense
cells and whose nearest-dense-centroid distance is at most 3 km; the list is
sorted ascending by that nearest distance and has at most 3 elements. -/
theorem C1_whiteSpaceAreas_contract (d : Dist) (pts : List Pt) :
    (∀ a ∈ whiteSpaceAreas d pts,
        a.count ≤ 1 ∧
        (∀ dc ∈ topDense pts, ¬(dc.key = a.key)) ∧
        wsNearest d pts a ≤ 3) ∧
    (whiteSpaceAreas d pts).Pairwise
      (fun a b => wsNearest d pts a ≤ wsNearest d pts b) ∧
    (whiteSpaceAreas d pts).length ≤ 3 := by
  refine ⟨?_, ?_, ?_⟩
  · intro a ha
    rcases mem_whiteSpaceAreas ha with ⟨cd, hcd, rfl⟩
    rcases mem_whiteSpaceRaw hcd with ⟨-, hcnt, hnd, -, hle⟩
    exact ⟨hcnt, hnd, by rw [wsNearest_eq hcd]; exact hle⟩
  · rw [whiteSpaceAreas, List.pairwise_map]
    refine (sorted_whiteSpaceRaw d pts).imp_of_mem ?_
    intro cd cd' h1 h2 hle
    rw [wsNearest_eq h1, wsNearest_eq h2]
    exact hle
  · rw [whiteSpaceAreas, List.length_map]
    exact length_whiteSpaceRaw d pts

/-- Witness for C1 at a concrete upload and distance model. -/
theorem C1_whiteSpaceAreas_contract_witness :
    (⟨(10.03, 20), 1, (10.031, 20), 1⟩ : WSArea).count ≤ 1 ∧
    (∀ dc ∈ topDense exPts, ¬(dc.key = ((10.03 : ℚ), (20 : ℚ)))) ∧
    wsNearest exD exPts ⟨(10.03, 20), 1, (10.031, 20), 1⟩ ≤ 3 :=
  (C1_whiteSpaceAreas_contract exD exPts).1
    ⟨(10.03, 20), 1, (10.031, 20), 1⟩ (by decide)

/-- Claim C2, counterexample: a negative `customer_count` (which the upload
parser and the schema both admit) in a cell outside the top 3 drives
`concentrationPercent` to 200, outside `[0, 100]`. -/
theorem C2_concentration_counterexample :
    concentrationPercent exRowsNeg = 200 ∧
      ¬(0 ≤ concentrationPercent exRowsNeg ∧
        concentrationPercent exRowsNeg ≤ 100) := by
  decide

/-- Claim C2 (amended): provided every present `customer_count` is
nonnegative, `concentrationPercent` equals round-half-up of 100 times the
ratio of the customer counts of rows in top-3 dense cells to the total
customer count of successfully geocoded rows (missing counts as 0), is 0
when the total is 0, and lies in `[0, 100]`. -/
theorem C2_concentration_amended (rows : List URow)
    (hpos : ∀ r ∈ rows, 0 ≤ r.customerCount.getD 0) :
    concentrationPercent rows = concentrationSpec rows ∧
    0 ≤ concentrationPercent rows ∧
    concentrationPercent rows ≤ 100 ∧
    (totalCustomers rows = 0 → concentrationPercent rows = 0) := by
  have ht0 := totalCustomers_nonneg hpos
  by_cases ht : totalCustomers rows = 0
  · have hnot : ¬(0 < totalCustomers rows) := by omega
    unfold concentrationPercent concentrationSpec
    rw [if_neg hnot, if_pos ht]
    exact ⟨rfl, le_refl 0, by norm_num, fun _ => rfl⟩
  · have htpos : 0 < totalCustomers rows := lt_of_le_of_ne ht0 (Ne.symm ht)
    have hc0 : 0 ≤ customersInTop3 rows := by
      rw [customersInTop3_eq]; exact topRows_nonneg hpos
    have hct : customersInTop3 rows ≤ totalCustomers rows := by
      rw [customersInTop3_eq]; exact topRows_le_total hpos
    have htQ : (0:ℚ) < (totalCustomers rows : ℚ) := by exact_mod_cast htpos
    have hcQ : (0:ℚ) ≤ (customersInTop3 rows : ℚ) := by exact_mod_cast hc0
    have hctQ : (customersInTop3 rows : ℚ) ≤ (totalCustomers rows : ℚ) := by
      exact_mod_cast hct
    have hx0 : (0:ℚ) ≤
        (customersInTop3 rows : ℚ) / (totalCustomers rows : ℚ) * 100 :=
      mul_nonneg (div_nonneg hcQ htQ.le) (by norm_num)
    have hx100 :
        (customersInTop3 rows : ℚ) / (totalCustomers rows : ℚ) * 100 ≤ 100 := by
      rw [div_mul_eq_mul_div, div_le_iff₀ htQ]
      nlinarith
    have hcp : concentrationPercent rows =
        ((customersInTop3 rows : ℚ) / (totalCustomers rows : ℚ) * 100
          + 1/2).floor := by
      unfold concentrationPercent jsRound
      rw [if_pos htpos]
    have hfl0 : 0 ≤ concentrationPercent rows := by
      rw [hcp, ratFloor_eq_floor]
      exact Int.floor_nonneg.2 (by linarith)
    have hfl100 : concentrationPercent rows ≤ 100 := by
      rw [hcp, ratFloor_eq_floor]
      have h1 : ⌊(customersInTop3 rows : ℚ) / (totalCustomers rows : ℚ) * 100
          + 1/2⌋ ≤ ⌊(100 : ℚ) + 1/2⌋ := Int.floor_le_floor (by linarith)
      have h2 : ⌊(100 : ℚ) + 1/2⌋ = 100 := Int.floor_eq_iff.2 (by norm_num)
      omega
    refine ⟨?_, hfl0, hfl100, fun h => absurd h ht⟩
    rw [hcp]
    unfold concentrationSpec
    rw [if_neg ht, customersInTop3_eq]
    rw [ratFloor_eq_floor, ratFloor_eq_floor]
    congr 1
    ring

/-- Witness for the amended C2 at a concrete upload. -/
theorem C2_concentration_amended_witness :
    concentrationPercent exRows = concentrationSpec exRows ∧
    0 ≤ concentrationPercent exRows ∧
    concentrationPercent exRows ≤ 100 ∧
    (totalCustomers exRows = 0 → concentrationPercent exRows = 0) :=
  C2_concentration_amended exRows (by decide)

/-- Claim C3: the aggregator groups by 2-decimal-rounded coordinates — two
points share a cell iff their rounded coordinates agree — and each cell
carries the member count, the arithmetic mean of the unrounded member
coordinates, and the summed customer count with missing values as 0; the
spec's example pair lands in the single cell keyed `(37.77, -122.42)`. -/
theorem C3_grid_grouping (pts : List Pt) :
    (∀ c ∈ gridCells pts,
        c.count = (membersOf pts c.key).length ∧
        c.centerLat = ((membersOf pts c.key).map Pt.lat).sum
            / ((membersOf pts c.key).length : ℚ) ∧
        c.centerLng = ((membersOf pts c.key).map Pt.lng).sum
            / ((membersOf pts c.key).length : ℚ) ∧
        c.totalCustomers = ((membersOf pts c.key).map
            (fun p => p.customerCount.getD 0)).sum) ∧
    (∀ p ∈ pts, ∀ q ∈ pts,
        ((∃ c ∈ gridCells pts,
            p ∈ membersOf pts c.key ∧ q ∈ membersOf pts c.key)
          ↔ cellKey p = cellKey q)) ∧
    (cellKey ⟨37.774901, -122.419412, none⟩ = (37.77, -122.42) ∧
      cellKey ⟨37.774888, -122.419399, none⟩ = (37.77, -122.42) ∧
      (gridCells exPtsPair).map GridCell.key = [(37.77, -122.42)] ∧
      (gridCells exPtsPair).map GridCell.count = [2]) := by
  refine ⟨?_, ?_, by decide, by decide, by decide, by decide⟩
  · intro c hc
    rcases mem_gridCells.1 hc with ⟨-, hck⟩
    rw [hck]
    exact ⟨rfl, rfl, rfl, rfl⟩
  · intro p hp q hq
    constructor
    · rintro ⟨c, -, hpc, hqc⟩
      rw [(mem_membersOf.1 hpc).2, (mem_membersOf.1 hqc).2]
    · intro hpq
      refine ⟨mkCell pts (cellKey p), ?_, ?_, ?_⟩
      · exact mem_gridCells.2 ⟨cellKey_mem_keysOf hp, rfl⟩
      · exact mem_membersOf.2 ⟨hp, rfl⟩
      · exact mem_membersOf.2 ⟨hq, hpq.symm⟩

/-- Witness for C3: the spec's example pair is merged into one cell. -/
theorem C3_grid_grouping_witness :
    ∃ c ∈ gridCells exPtsPair,
      (⟨37.774901, -122.419412, none⟩ : Pt) ∈ membersOf exPtsPair c.key ∧
      (⟨37.774888, -122.419399, none⟩ : Pt) ∈ membersOf exPtsPair c.key :=
  ((C3_grid_grouping exPtsPair).2.1 _ (by decide) _ (by decide)).2 (by decide)

/-- Claim C9: every grid cell holds at least one point, so every reported
whitespace area has occupancy exactly 1, never 0. -/
theorem C9_whitespace_count_one (d : Dist) (pts : List Pt) :
    ∀ a ∈ whiteSpaceAreas d pts, a.count = 1 := by
  intro a ha
  rcases mem_whiteSpaceAreas ha with ⟨cd, hcd, rfl⟩
  rcases mem_whiteSpaceRaw hcd with ⟨hcell, hcnt, -, -, -⟩
  have hpos := count_pos_of_mem_gridCells hcell
  show cd.1.count = 1
  omega

/-- Witness for C9 at a concrete upload and distance model. -/
theorem C9_whitespace_count_one_witness :
    (⟨(10.03, 20), 1, (10.031, 20), 1⟩ : WSArea).count = 1 :=
  C9_whitespace_count_one exD exPts
    ⟨(10.03, 20), 1, (10.031, 20), 1⟩ (by decide)

/-- Claim C4: with zero pending rows the run sets `done` immediately and
makes no resolver call; otherwise every pending row is attempted exactly
once, and the final status is `done` iff some attempt succeeded and `failed`
iff every attempt failed. -/
theorem C4_pipeline_outcomes (resolve : Resolver) (u : Upload) :
    (u.rows.filter (fun r => r.status = RowStatus.pending) = [] →
        (runGeocode resolve u).upload.status = UploadStatus.done ∧
        (runGeocode resolve u).resolverCalls = 0 ∧
        (runGeocode resolve u).upload.rows = u.rows) ∧
    (u.rows.filter (fun r => r.status = RowStatus.pending) ≠ [] →
        (runGeocode resolve u).resolverCalls =
          (u.rows.filter (fun r => r.status = RowStatus.pending)).length ∧
        (runGeocode resolve u).upload.rows =
          u.rows.map (fun r => if r.status = RowStatus.pending
            then geocodeRow resolve r else r) ∧
        ((runGeocode resolve u).upload.status = UploadStatus.done ↔
          ∃ r ∈ u.rows.filter (fun r => r.status = RowStatus.pending),
            (geocodeRow resolve r).status = RowStatus.success) ∧
        ((runGeocode resolve u).upload.status = UploadStatus.failed ↔
          ∀ r ∈ u.rows.filter (fun r => r.status = RowStatus.pending),
            (geocodeRow resolve r).status = RowStatus.failed)) := by
  have hsucc : 0 < successCount resolve u ↔
      ∃ r ∈ u.rows.filter (fun r => r.status = RowStatus.pending),
        (geocodeRow resolve r).status = RowStatus.success := by
    rw [successCount, List.countP_pos_iff]
    simp only [List.mem_map, beq_iff_eq]
    constructor
    · rintro ⟨x, ⟨r, hr, rfl⟩, hx⟩
      exact ⟨r, hr, hx⟩
    · rintro ⟨r, hr, hx⟩
      exact ⟨geocodeRow resolve r, ⟨r, hr, rfl⟩, hx⟩
  constructor
  · intro h0
    rw [runGeocode, if_pos (by simp [h0])]
    exact ⟨rfl, rfl, rfl⟩
  · intro hne
    rw [runGeocode, if_neg (by simpa using hne)]
    refine ⟨processRows_snd resolve u.rows, processRows_fst resolve u.rows, ?_, ?_⟩
    · by_cases hs : 0 < successCount resolve u
      · simpa [hs] using hsucc.1 hs
      · simp only [hs, if_false, if_neg hs]
        constructor
        · intro h; exact absurd h (by simp)
        · intro h; exact absurd (hsucc.2 h) hs
    · by_cases hs : 0 < successCount resolve u
      · simp only [if_pos hs]
        constructor
        · intro h; exact absurd h (by simp)
        · intro hall
          rcases hsucc.1 hs with ⟨r, hr, hsucc_r⟩
          rw [hall r hr] at hsucc_r
          exact absurd hsucc_r (by simp)
      · simp only [if_neg hs]
        have hnone := fun hex => hs (hsucc.2 hex)
        constructor
        · intro _ r hr
          rcases geocodeRow_status resolve r with h | h
          · exact absurd ⟨r, hr, h⟩ hnone
          · exact h
        · intro _; trivial

/-- Witness for C4 at a concrete resolver and upload with pending rows. -/
theorem C4_pipeline_outcomes_witness :
    (runGeocode exResolver exPendingUpload).resolverCalls =
      (exPendingUpload.rows.filter
        (fun r => r.status = RowStatus.pending)).length ∧
    (runGeocode exResolver exPendingUpload).upload.rows =
      exPendingUpload.rows.map (fun r => if r.status = RowStatus.pending
        then geocodeRow exResolver r else r) ∧
    ((runGeocode exResolver exPendingUpload).upload.status = UploadStatus.done ↔
      ∃ r ∈ exPendingUpload.rows.filter (fun r => r.status = RowStatus.pending),
        (geocodeRow exResolver r).status = RowStatus.success) ∧
    ((runGeocode exResolver exPendingUpload).upload.status = UploadStatus.failed ↔
      ∀ r ∈ exPendingUpload.rows.filter (fun r => r.status = RowStatus.pending),
        (geocodeRow exResolver r).status = RowStatus.failed) :=
  (C4_pipeline_outcomes exResolver exPendingUpload).2 (by decide)

/-- Claim C5, counterexample: re-invoking the geocoding trigger on a `failed`
upload whose rows were all attempted moves it to `done`, so `failed` is not
terminal. -/
theorem C5_terminal_counterexample :
    exFailedUpload.status = UploadStatus.failed ∧
    (runGeocode exResolver exFailedUpload).upload.status = UploadStatus.done ∧
    ¬(UploadStatus.done = UploadStatus.failed) := by
  decide

/-- Claim C5 (amended): a run writes `processing` and then a terminal value
in `{done, failed}`; but `done` and `failed` are not terminal states, because
re-invoking the trigger on any upload with no pending rows (in particular one
already `done` or `failed`) rewrites `processing` and then `done`. -/
theorem C5_transitions_amended (resolve : Resolver) (u : Upload) :
    (runGeocode resolve u).statusWrites =
      [UploadStatus.processing, (runGeocode resolve u).upload.status] ∧
    ((runGeocode resolve u).upload.status = UploadStatus.done ∨
      (runGeocode resolve u).upload.status = UploadStatus.failed) ∧
    (u.rows.filter (fun r => r.status = RowStatus.pending) = [] →
      (runGeocode resolve u).upload.status = UploadStatus.done) := by
  rw [runGeocode]
  by_cases hp : (u.rows.filter (fun r => r.status = RowStatus.pending)).isEmpty
  · rw [if_pos hp]
    exact ⟨rfl, Or.inl rfl, fun _ => rfl⟩
  · rw [if_neg hp]
    refine ⟨rfl, ?_, ?_⟩
    · by_cases hs : 0 < successCount resolve u
      · exact Or.inl (by simp [hs])
      · exact Or.inr (by simp [hs])
    · intro h0
      exact absurd (by simp [h0] : (u.rows.filter
        (fun r => r.status = RowStatus.pending)).isEmpty = true) hp

/-- Witness for the amended C5 at a concrete resolver and upload. -/
theorem C5_transitions_amended_witness :
    (runGeocode exResolver exFailedUpload).statusWrites =
      [UploadStatus.processing,
        (runGeocode exResolver exFailedUpload).upload.status] ∧
    ((runGeocode exResolver exFailedUpload).upload.status = UploadStatus.done ∨
      (runGeocode exResolver exFailedUpload).upload.status =
        UploadStatus.failed) ∧
    (exFailedUpload.rows.filter (fun r => r.status = RowStatus.pending) = [] →
      (runGeocode exResolver exFailedUpload).upload.status =
        UploadStatus.done) :=
  C5_transitions_amended exResolver exFailedUpload

/-- Claim C6, failing input: the two points land in distinct grid cells,
both cells are dense, and their centroids round to the same `toFixed(2)`
label key, yet the computation issues TWO `reverseGeocode` calls for that
key where the claim requires exactly one — both `getLabel` invocations of
the dense `Promise.all` batch check the fresh cache before either awaited
fetch resolves and inserts. -/
theorem C6_duplicate_call_race :
    (gridCells exPtsC6).map GridCell.key =
      [(37.77, -122.42), (37.77, -122.41)] ∧
    (topDense exPtsC6).length = 2 ∧
    (denseCenters exPtsC6).map labelKey =
      ["37.77,-122.41", "37.77,-122.41"] ∧
    (insightsLabelTrace exD exPtsC6).count "37.77,-122.41" = 2 ∧
    ¬((insightsLabelTrace exD exPtsC6).count "37.77,-122.41" = 1) := by
  refine ⟨by decide, by decide, by decide, by decide, by decide⟩

/-- Claim C10: each reported `distanceKm` is the unrounded
nearest-dense-centroid distance rounded to one decimal, while the 3 km
threshold and the ascending order use the unrounded distance; concretely, two
areas can report equal `distanceKm` (here both 1.0, from 1.01 and 1.04) while
keeping the order of their unrounded distances, and a reported 3.0 arises
from an unrounded 2.96 km that passes the threshold. -/
theorem C10_distanceKm_rounding (d : Dist) (pts : List Pt) :
    (∀ a ∈ whiteSpaceAreas d pts,
        a.distanceKm = round1 (wsNearest d pts a) ∧ wsNearest d pts a ≤ 3) ∧
    ((whiteSpaceAreas exD exPts).map WSArea.distanceKm = [1, 1, 3] ∧
      (whiteSpaceAreas exD exPts).map (wsNearest exD exPts) =
        [101/100, 104/100, 296/100] ∧
      (whiteSpaceAreas exD exPts).map WSArea.key =
        [(10.03, 20), (10.04, 20), (10.05, 20)] ∧
      (296/100 : ℚ) < 3 ∧ round1 (296/100) = 3) := by
  constructor
  · intro a ha
    rcases mem_whiteSpaceAreas ha with ⟨cd, hcd, rfl⟩
    rcases mem_whiteSpaceRaw hcd with ⟨-, -, -, -, hle⟩
    refine ⟨?_, ?_⟩
    · rw [wsNearest_eq hcd]
    · rw [wsNearest_eq hcd]; exact hle
  · exact ⟨by decide, by decide, by decide, by decide, by decide⟩

/-- Witness for C10: the 2.96 km area reports 3.0 after rounding. -/
theorem C10_distanceKm_rounding_witness :
    (⟨(10.05, 20), 1, (10.051, 20), 3⟩ : WSArea).distanceKm =
      round1 (wsNearest exD exPts ⟨(10.05, 20), 1, (10.051, 20), 3⟩) ∧
    wsNearest exD exPts ⟨(10.05, 20), 1, (10.051, 20), 3⟩ ≤ 3 :=
  (C10_distanceKm_rounding exD exPts).1
    ⟨(10.05, 20), 1, (10.051, 20), 3⟩ (by decide)

/-- Claim C7, counterexample: with candidates `[address, poi]` the claim's
policy labels with the poi's name `"Tower"` (the first non-address
candidate), but `reverseGeocode` inspects only the first candidate, finds an
address, and returns the `"Near ..."` fallback. -/
theorem C7_reverse_label_counterexample :
    reverseGeocodeLabel 1 2 exAddrFeatures = "Near 1.00, 2.00" ∧
    reverseLabelClaim 1 2 exAddrFeatures = "Tower" ∧
    reverseGeocodeLabel 1 2 exAddrFeatures ≠ reverseLabelClaim 1 2 exAddrFeatures := by
  refine ⟨by decide, by decide, by decide⟩

/-- Claim C7 (amended): for candidates with usable (nonempty) names, the
returned label follows the priority order `neighborhood, locality, place,
district, region`, composes `"<name> / <locality-or-region>"` when a
distinguishing one differs from the name and the bare name otherwise; when
no candidate matches a preferred classification the FIRST candidate's name
is used provided it is not an address, and otherwise (first candidate an
address, or no candidates) the literal `"Near {lat:.2f}, {lng:.2f}"` is
returned. -/
theorem C7_reverse_label_amended (lat lng : ℚ) (fs : List Feature)
    (hf : ∀ f ∈ fs, f.text ≠ "") :
    reverseGeocodeLabel lat lng fs = reverseLabelAmended lat lng fs := by
  unfold reverseGeocodeLabel reverseLabelAmended
  rw [claimFindPriority_eq]
  cases hp : findPriority fs priorityTypes with
  | some f =>
    exact composeLabel_eq_claimCompose lat lng f (hf f (findPriority_mem hp))
  | none =>
    cases fs with
    | nil => rfl
    | cons f0 fs' =>
      by_cases ha : "address" ∈ f0.placeTypes
      · simp [ha]
      · simp [ha, hf f0 (List.mem_cons_self f0 fs')]

/-- Witness for the amended C7: a neighborhood with a distinguishing
locality is labelled `"Mission / SF"` under both descriptions. -/
theorem C7_reverse_label_amended_witness :
    reverseGeocodeLabel 37.77 (-122.42) exGoodFeatures =
      reverseLabelAmended 37.77 (-122.42) exGoodFeatures ∧
    reverseGeocodeLabel 37.77 (-122.42) exGoodFeatures = "Mission / SF" :=
  ⟨C7_reverse_label_amended 37.77 (-122.42) exGoodFeatures (by decide),
   by decide⟩

/-- Claim C8, counterexample: for the whitespace area reported at 2.4 km the
presentation layer's radius is 3 km, a value that appears nowhere in the
area record the insight engine returns — the radius is computed by the
presentation layer, not "as part of the insights result". -/
theorem C8_radius_counterexample :
    (whiteSpaceAreas exD2 exPts).head? =
      some ⟨(10.03, 20), 1, (10.031, 20), 12/5⟩ ∧
    uiRadius ⟨(10.03, 20), 1, (10.031, 20), 12/5⟩ = 3 ∧
    uiRadius ⟨(10.03, 20), 1, (10.031, 20), 12/5⟩ ≠ (12/5 : ℚ) ∧
    uiRadius ⟨(10.03, 20), 1, (10.031, 20), 12/5⟩ ≠ ((1 : ℕ) : ℚ) ∧
    uiRadius ⟨(10.03, 20), 1, (10.031, 20), 12/5⟩ ≠ (10.03 : ℚ) ∧
    uiRadius ⟨(10.03, 20), 1, (10.031, 20), 12/5⟩ ≠ (20 : ℚ) ∧
    uiRadius ⟨(10.03, 20), 1, (10.031, 20), 12/5⟩ ≠ (10.031 : ℚ) := by
  refine ⟨by decide, by decide, by decide, by decide, by decide, by decide,
    by decide⟩

/-- Claim C8 (amended): for every reported whitespace area the display
radius computed by the presentation layer from the reported `distanceKm`
equals `clamp(ceil(distanceKm), 0.5, 3)` kilometres; the insights result
itself carries only `distanceKm`. -/
theorem C8_radius_amended (d : Dist) (pts : List Pt) :
    ∀ a ∈ whiteSpaceAreas d pts,
      uiRadius a = clamp ((⌈a.distanceKm⌉ : ℚ)) (1/2) 3 := by
  intro a _
  rw [uiRadius, clamp, jsCeil_eq_ceil]
  rcases le_total ((⌈a.distanceKm⌉ : ℚ)) (1/2) with h1 | h1 <;>
    rcases le_total ((⌈a.distanceKm⌉ : ℚ)) 3 with h2 | h2 <;>
    simp [min_def, max_def] <;> split_ifs <;> linarith

/-- Witness for the amended C8 at a concrete area of the insights output. -/
theorem C8_radius_amended_witness :
    uiRadius ⟨(10.03, 20), 1, (10.031, 20), 12/5⟩ =
      clamp ((⌈(⟨(10.03, 20), 1, (10.031, 20), 12/5⟩ : WSArea).distanceKm⌉ : ℚ))
        (1/2) 3 :=
  C8_radius_amended exD2 exPts ⟨(10.03, 20), 1, (10.031, 20), 12/5⟩ (by decide)

end ArealLens
